import Mathlib

/-!
# Verification of the AD/Azure → FreeIPA sync tools

Shallow embedding of the reconciliation engine of `ad_sync.py` and
`azure_freeipa_sync.py` (creeksidenetworks/freeIPA), together with proofs of
the frozen claims about the specification.

Conventions of the embedding:
* Python `bytes` values are `List Nat` with every element < 256 where it
  matters; machine words are read with explicit positional arithmetic.
* Python functions that catch exceptions and return `None` are total Lean
  functions into `Option`; `none` is the spec's `Undefined`.  Totality of the
  Lean functions is the formal counterpart of "never raises an uncaught
  exception".
* Python strings are `List Char` (via `String.data` at concrete inputs).
* `int(...)` applied to a dash-free SID component is modelled by
  `pyComponentNat?` (optional `+` sign followed by decimal digits; exotic
  forms such as embedded underscores or non-ASCII digits are out of scope of
  every claim).
-/

/-- `str.split('-')` on a list of characters: splitting on a separator,
keeping empty pieces, as Python does.  The result is always nonempty. -/
def splitOnChar (sep : Char) : List Char → List (List Char)
  | [] => [[]]
  | c :: rest =>
    if c = sep then [] :: splitOnChar sep rest
    else (c :: (splitOnChar sep rest).headD []) :: (splitOnChar sep rest).tail

/-- Decimal digits of a component, parsed as a natural number; `none` when the
component is empty or contains a non-digit.  Mirrors Python `int` on an
unsigned digit string. -/
def digitsNat? (cs : List Char) : Option Nat :=
  if cs ≠ [] ∧ cs.all Char.isDigit then
    some (cs.foldl (fun a c => 10 * a + (c.toNat - 48)) 0)
  else none

/-- Python `int(component)` for a SID component (no `-` can occur in a
component because the string was split on `-`): optional leading `+`, then
digits. -/
def pyComponentNat? (cs : List Char) : Option Nat :=
  if cs.headD ' ' = '+' then digitsNat? cs.tail else digitsNat? cs

/-- The decimal digit character for `n < 10` (Python `str` of a digit). -/
def digitChar10 : Nat → Char
  | 0 => '0' | 1 => '1' | 2 => '2' | 3 => '3' | 4 => '4'
  | 5 => '5' | 6 => '6' | 7 => '7' | 8 => '8' | _ => '9'

/-- Fuel-driven decimal printer (most significant digit first). -/
def natDigitsAux : Nat → Nat → List Char
  | 0, _ => []
  | fuel + 1, n =>
    if n < 10 then [digitChar10 n]
    else natDigitsAux fuel (n / 10) ++ [digitChar10 (n % 10)]

/-- Python `str(n)` for a natural number `n`. -/
def natDigits (n : Nat) : List Char := natDigitsAux (n + 1) n

/-- `struct.unpack('<I', b[off:off+4])`: little-endian 32-bit read; `none`
models the `struct.error` raised when the slice is shorter than 4 bytes. -/
def readLE32? (b : List Nat) (off : Nat) : Option Nat :=
  if off + 4 ≤ b.length then
    some (b.getD off 0 + 256 * b.getD (off + 1) 0 +
      65536 * b.getD (off + 2) 0 + 16777216 * b.getD (off + 3) 0)
  else none

/-- The loop `for i in range(count): struct.unpack('<I', sid[8+4i:8+4i+4])`,
reading sub-authority `i₀, i₀+1, …`; the first failing read aborts the whole
conversion (the Python exception propagates to the handler). -/
def readSubAuthsFrom (b : List Nat) (i : Nat) : Nat → Option (List Nat)
  | 0 => some []
  | n + 1 =>
    match readLE32? b (8 + 4 * i), readSubAuthsFrom b (i + 1) n with
    | some v, some rest => some (v :: rest)
    | _, _ => none

/-- All `count` sub-authorities of a binary SID, starting at offset 8. -/
def readSubAuths (b : List Nat) (count : Nat) : Option (List Nat) :=
  readSubAuthsFrom b 0 count

/-- `struct.unpack('>Q', b'\x00\x00' + sid[2:8])`: the 48-bit identifier
authority, big-endian (bytes 2–7). -/
def sidAuthority (b : List Nat) : Nat :=
  b.getD 2 0 * 1099511627776 + b.getD 3 0 * 4294967296 + b.getD 4 0 * 16777216 +
    b.getD 5 0 * 65536 + b.getD 6 0 * 256 + b.getD 7 0

/-- `s.encode('latin-1')`: each code point below 256 becomes one byte; a
larger code point raises `UnicodeEncodeError` (modelled by `none`). -/
def latin1Encode? (s : List Char) : Option (List Nat) :=
  s.mapM (fun c => if c.toNat < 256 then some c.toNat else none)

/-- A SID value as it reaches `sid_to_uid` / `sid_to_string`: either a Python
`str` or a Python `bytes`. -/
inductive SidInput where
  | str (s : List Char)
  | bytes (b : List Nat)

/-- `sid_bytes.startswith('S-')`. -/
def startsWithSDash : List Char → Bool
  | 'S' :: '-' :: _ => true
  | _ => false

/-- The dash-separated components of a textual SID. -/
def textComponents (s : List Char) : List (List Char) := splitOnChar '-' s

/-- `int(parts[-1])` of a textual SID: the RID component parsed as an
integer, `none` when unparsable. -/
def textRid? (s : List Char) : Option Nat :=
  pyComponentNat? ((textComponents s).getLastD [])

/-- The textual branch of `sid_to_uid` (`ad_sync.py` lines 55-60). -/
def sid_to_uid_text (s : List Char) (base : Nat) : Option Nat :=
  if 8 ≤ (textComponents s).length then
    match textRid? s with
    | some rid => some (base + rid)
    | none => none
  else none

/-- The binary branch of `sid_to_uid` after the 12-byte minimum-length check
(`ad_sync.py` lines 70-95). -/
def sid_to_uid_binCore (b : List Nat) (base : Nat) : Option Nat :=
  match readSubAuths b (b.getD 1 0) with
  | none => none
  | some sas => if sas.isEmpty then none else some (base + sas.getLastD 0)

/-- `sid_to_uid` — the Identifier Mapper `deriveIdentity(identifier, base)`
of `ad_sync.py` lines 36-99.  `none` is the spec's `Undefined`; every Python
exception inside the `try` block is caught and turned into `None`, which the
embedding realises by making every failure case return `none`. -/
def sid_to_uid : SidInput → Nat → Option Nat
  | .str s, base =>
    if s = [] then none
    else if startsWithSDash s then sid_to_uid_text s base
    else if s.length < 12 then none
    else
      match latin1Encode? s with
      | none => none
      | some b => sid_to_uid_binCore b base
  | .bytes b, base =>
    if b = [] then none
    else if b.length < 12 then none
    else sid_to_uid_binCore b base

/-- The binary branch of `sid_to_string` after the length check
(`ad_sync.py` lines 119-130): `"S-{revision}-{authority}"` followed by
`"-{sub_auth}"` per sub-authority; a failed sub-authority read makes the whole
conversion return `None`. -/
def sid_to_string_binCore (b : List Nat) : Option (List Char) :=
  match readSubAuths b (b.getD 1 0) with
  | none => none
  | some sas =>
    some (('S' :: '-' :: natDigits (b.getD 0 0)) ++
      '-' :: natDigits (sidAuthority b) ++
      sas.flatMap (fun sa => '-' :: natDigits sa))

/-- `sid_to_string` — `identifierToString` of `ad_sync.py` lines 102-132:
passthrough for textual input, canonical textual form for binary input. -/
def sid_to_string : SidInput → Option (List Char)
  | .str s =>
    if s = [] then none
    else if startsWithSDash s then some s
    else if s.length < 12 then none
    else
      match latin1Encode? s with
      | none => none
      | some b => sid_to_string_binCore b
  | .bytes b =>
    if b = [] then none
    else if b.length < 12 then none
    else sid_to_string_binCore b

/-- A textual SID the code accepts: `S-`-prefixed, at least 8 dash-separated
components, and a RID component that parses as an integer. -/
def validTextSid (s : List Char) : Bool :=
  startsWithSDash s && decide (8 ≤ (textComponents s).length) && (textRid? s).isSome

/-- A binary SID the code accepts: at least 12 bytes, at least one declared
sub-authority, and a buffer long enough to hold all declared sub-authorities
(no truncation). -/
def validBinSid (b : List Nat) : Bool :=
  decide (12 ≤ b.length) && decide (1 ≤ b.getD 1 0) &&
    decide (8 + 4 * b.getD 1 0 ≤ b.length)

/-- The RID of a valid binary SID: its last sub-authority. -/
def binRid (b : List Nat) : Nat :=
  ((readSubAuths b (b.getD 1 0)).getD []).getLastD 0

/-- The RID of a valid textual SID: its last component parsed. -/
def textRid (s : List Char) : Nat := (textRid? s).getD 0

theorem readSubAuthsFrom_ok (b : List Nat) :
    ∀ (n i : Nat), 8 + 4 * (i + n) ≤ b.length →
      ∃ sas, readSubAuthsFrom b i n = some sas ∧ sas.length = n := by
  intro n
  induction n with
  | zero => exact fun i _ => ⟨[], rfl, rfl⟩
  | succ n ih =>
    intro i h
    obtain ⟨sas, hs, hl⟩ := ih (i + 1) (by omega)
    have hr : readLE32? b (8 + 4 * i) =
        some (b.getD (8 + 4 * i) 0 + 256 * b.getD (8 + 4 * i + 1) 0 +
          65536 * b.getD (8 + 4 * i + 2) 0 + 16777216 * b.getD (8 + 4 * i + 3) 0) := by
      rw [readLE32?, if_pos (by omega)]
    refine ⟨(b.getD (8 + 4 * i) 0 + 256 * b.getD (8 + 4 * i + 1) 0 +
      65536 * b.getD (8 + 4 * i + 2) 0 + 16777216 * b.getD (8 + 4 * i + 3) 0) :: sas,
      ?_, by simp [hl]⟩
    simp [readSubAuthsFrom, hr, hs]

theorem readSubAuthsFrom_truncated (b : List Nat) :
    ∀ (n i : Nat), 1 ≤ n → b.length < 8 + 4 * (i + n) →
      readSubAuthsFrom b i n = none := by
  intro n
  induction n with
  | zero => intro i h1 _; omega
  | succ n ih =>
    intro i h1 h2
    by_cases hfirst : 8 + 4 * i + 4 ≤ b.length
    · have hn : 1 ≤ n := by omega
      have hrest := ih (i + 1) hn (by omega)
      cases hx : readLE32? b (8 + 4 * i) <;> simp [readSubAuthsFrom, hx, hrest]
    · have hno : readLE32? b (8 + 4 * i) = none := by
        rw [readLE32?, if_neg hfirst]
      simp [readSubAuthsFrom, hno]

/-- C1: For every identifier the code accepts as valid — a textual `S-`-prefixed
form with at least 8 dash-separated components whose RID component parses as an
integer, or a binary form with at least one declared sub-authority and a buffer
long enough to hold all of them (hence at least 12 bytes) — and every base,
`deriveIdentity(identifier, base)` equals base plus the RID, where the RID is
the last dash-separated component (textual) or the last sub-authority (binary);
in particular `deriveIdentity("S-1-5-21-1-2-3-1105", 1668600000) = 1668601105`. -/
theorem C1_deriveIdentity_base_plus_rid :
    (∀ s base, validTextSid s = true →
      sid_to_uid (.str s) base = some (base + textRid s)) ∧
    (∀ b base, validBinSid b = true →
      sid_to_uid (.bytes b) base = some (base + binRid b)) ∧
    sid_to_uid (.str ("S-1-5-21-1-2-3-1105".data)) 1668600000 = some 1668601105 := by
  refine ⟨?_, ?_, by decide⟩
  · intro s base hv
    simp only [validTextSid, Bool.and_eq_true, decide_eq_true_eq,
      Option.isSome_iff_exists] at hv
    obtain ⟨⟨hS, hlen⟩, rid, hrid⟩ := hv
    have hne : s ≠ [] := by
      intro h; subst h; simp [startsWithSDash] at hS
    rw [sid_to_uid, if_neg hne, if_pos hS, sid_to_uid_text, if_pos hlen, hrid,
      textRid, hrid, Option.getD_some]
  · intro b base hv
    simp only [validBinSid, Bool.and_eq_true, decide_eq_true_eq] at hv
    obtain ⟨⟨h12, h1⟩, hfit⟩ := hv
    have hne : b ≠ [] := by
      intro h; subst h; simp at h12
    obtain ⟨sas, hs, hl⟩ := readSubAuthsFrom_ok b (b.getD 1 0) 0 (by omega)
    have hsas : readSubAuths b (b.getD 1 0) = some sas := hs
    have hnonempty : sas.isEmpty = false := by
      cases sas with
      | nil => simp only [List.length_nil] at hl; omega
      | cons a t => rfl
    have hge : ¬ b.length < 12 := by omega
    rw [sid_to_uid, if_neg hne, if_neg hge, sid_to_uid_binCore, hsas]
    simp only [hnonempty, Bool.false_eq_true, if_false, binRid, hsas,
      Option.getD_some]

theorem C1_deriveIdentity_base_plus_rid_witness :
    validTextSid ("S-1-5-21-1-2-3-1105".data) = true ∧
    sid_to_uid (.str ("S-1-5-21-1-2-3-1105".data)) 200000 =
      some (200000 + textRid ("S-1-5-21-1-2-3-1105".data)) :=
  ⟨by decide, C1_deriveIdentity_base_plus_rid.1 _ 200000 (by decide)⟩

/-- C4: For every malformed identifier — a textual form with fewer than 8
dash-separated components, a binary buffer shorter than 12 bytes, a truncated
buffer (too short for its declared sub-authority count), or an unparsable RID
component — `deriveIdentity(identifier, base)` returns Undefined (`none`) for
every base.  The embedding is total, which is the formal counterpart of
"never raises an uncaught exception": every Python exception in the function's
`try` block is modelled as a `none`-returning branch. -/
theorem C4_malformed_yields_undefined :
    (∀ s base, startsWithSDash s = true → (textComponents s).length < 8 →
      sid_to_uid (.str s) base = none) ∧
    (∀ b base, b.length < 12 → sid_to_uid (.bytes b) base = none) ∧
    (∀ b base, 12 ≤ b.length → b.length < 8 + 4 * b.getD 1 0 →
      sid_to_uid (.bytes b) base = none) ∧
    (∀ s base, startsWithSDash s = true → textRid? s = none →
      sid_to_uid (.str s) base = none) := by
  refine ⟨?_, ?_, ?_, ?_⟩
  · intro s base hS hlen
    have hne : s ≠ [] := by
      intro h; subst h; simp [startsWithSDash] at hS
    have hlt : ¬ 8 ≤ (textComponents s).length := by omega
    rw [sid_to_uid, if_neg hne, if_pos hS, sid_to_uid_text, if_neg hlt]
  · intro b base hlen
    by_cases hne : b = []
    · subst hne; rfl
    · rw [sid_to_uid, if_neg hne, if_pos hlen]
  · intro b base h12 htr
    have hne : b ≠ [] := by
      intro h; subst h; simp at h12
    have hcount : 1 ≤ b.getD 1 0 := by omega
    have hnone : readSubAuths b (b.getD 1 0) = none :=
      readSubAuthsFrom_truncated b (b.getD 1 0) 0 hcount (by omega)
    have hge : ¬ b.length < 12 := by omega
    rw [sid_to_uid, if_neg hne, if_neg hge, sid_to_uid_binCore, hnone]
  · intro s base hS hrid
    have hne : s ≠ [] := by
      intro h; subst h; simp [startsWithSDash] at hS
    rw [sid_to_uid, if_neg hne, if_pos hS, sid_to_uid_text]
    by_cases hlen : 8 ≤ (textComponents s).length
    · rw [if_pos hlen, hrid]
    · rw [if_neg hlen]

theorem C4_malformed_yields_undefined_witness :
    ([2, 0, 0] : List Nat).length < 12 ∧
    sid_to_uid (.bytes [2, 0, 0]) 7 = none :=
  ⟨by decide, C4_malformed_yields_undefined.2.1 [2, 0, 0] 7 (by decide)⟩

/-- C10: For every binary identifier buffer of length at least 12 whose
declared sub-authority count (byte 1) is zero, `deriveIdentity` returns
Undefined for every base — beyond the 12-byte minimum, validity additionally
requires at least one sub-authority, and this extra rejection never raises
(the function is total). -/
theorem C10_zero_subauth_count_rejected :
    ∀ b base, 12 ≤ b.length → b.getD 1 0 = 0 →
      sid_to_uid (.bytes b) base = none := by
  intro b base h12 hc
  have hne : b ≠ [] := by
    intro h; subst h; simp at h12
  have hge : ¬ b.length < 12 := by omega
  rw [sid_to_uid, if_neg hne, if_neg hge, sid_to_uid_binCore, hc]
  rfl

theorem C10_zero_subauth_count_rejected_witness :
    12 ≤ ([3, 0, 9, 9, 9, 9, 9, 9, 1, 2, 3, 4] : List Nat).length ∧
    ([3, 0, 9, 9, 9, 9, 9, 9, 1, 2, 3, 4] : List Nat).getD 1 0 = 0 ∧
    sid_to_uid (.bytes [3, 0, 9, 9, 9, 9, 9, 9, 1, 2, 3, 4]) 5 = none :=
  ⟨by decide, by decide,
    C10_zero_subauth_count_rejected _ 5 (by decide) (by decide)⟩

theorem digitChar10_isDigit (n : Nat) : (digitChar10 n).isDigit = true := by
  rcases n with _ | _ | _ | _ | _ | _ | _ | _ | _ | n <;> rfl

theorem digitChar10_toNat {n : Nat} (h : n < 10) :
    (digitChar10 n).toNat = 48 + n := by
  interval_cases n <;> decide

theorem natDigitsAux_all_digit (fuel n : Nat) :
    ∀ c ∈ natDigitsAux fuel n, c.isDigit = true := by
  induction fuel generalizing n with
  | zero => intro c hc; simp [natDigitsAux] at hc
  | succ fuel ih =>
    intro c hc
    rw [natDigitsAux] at hc
    by_cases h : n < 10
    · rw [if_pos h] at hc
      simp at hc; subst hc; exact digitChar10_isDigit n
    · rw [if_neg h] at hc
      rcases List.mem_append.mp hc with h1 | h2
      · exact ih (n / 10) c h1
      · simp at h2; subst h2; exact digitChar10_isDigit (n % 10)

theorem natDigits_all_digit (n : Nat) : ∀ c ∈ natDigits n, c.isDigit = true :=
  natDigitsAux_all_digit (n + 1) n

theorem natDigitsAux_ne_nil (fuel n : Nat) : natDigitsAux (fuel + 1) n ≠ [] := by
  rw [natDigitsAux]
  by_cases h : n < 10
  · rw [if_pos h]; simp
  · rw [if_neg h]; simp

theorem natDigits_ne_nil (n : Nat) : natDigits n ≠ [] := natDigitsAux_ne_nil n n

theorem natDigitsAux_foldl (fuel : Nat) :
    ∀ n acc, n < fuel →
      (natDigitsAux fuel n).foldl (fun a c => 10 * a + (c.toNat - 48)) acc =
        acc * 10 ^ (natDigitsAux fuel n).length + n := by
  induction fuel with
  | zero => intro n acc h; omega
  | succ fuel ih =>
    intro n acc h
    rw [natDigitsAux]
    by_cases h10 : n < 10
    · rw [if_pos h10]
      simp [List.foldl, digitChar10_toNat h10]
      omega
    · rw [if_neg h10]
      have hdiv : n / 10 < fuel := by
        have h1 : n / 10 < n := Nat.div_lt_self (by omega) (by omega)
        omega
      rw [List.foldl_append]
      rw [ih (n / 10) acc hdiv]
      simp [List.foldl, digitChar10_toNat (Nat.mod_lt n (by omega))]
      rw [pow_succ]
      have : 10 * (n / 10) + n % 10 = n := Nat.div_add_mod n 10
      ring_nf
      omega

theorem digitsNat?_natDigits (n : Nat) : digitsNat? (natDigits n) = some n := by
  rw [digitsNat?, if_pos]
  · have := natDigitsAux_foldl (n + 1) n 0 (by omega)
    rw [natDigits, this]
    simp
  · exact ⟨natDigits_ne_nil n, List.all_eq_true.mpr fun c hc => natDigits_all_digit n c hc⟩

theorem pyComponentNat?_natDigits (n : Nat) :
    pyComponentNat? (natDigits n) = some n := by
  obtain ⟨c, t, hct⟩ := List.exists_cons_of_ne_nil (natDigits_ne_nil n)
  have hdig : c.isDigit = true :=
    natDigits_all_digit n c (hct ▸ List.mem_cons_self c t)
  have hplus : (natDigits n).headD ' ' ≠ '+' := by
    rw [hct]
    intro h
    rw [List.headD_cons] at h
    subst h
    simp [Char.isDigit] at hdig
  rw [pyComponentNat?, if_neg hplus, digitsNat?_natDigits]

theorem no_dash_of_all_digit {cs : List Char}
    (h : ∀ c ∈ cs, c.isDigit = true) : ('-' : Char) ∉ cs := by
  intro hmem
  have := h '-' hmem
  simp [Char.isDigit] at this

theorem splitOnChar_append_sep (sep : Char) (xs ys : List Char)
    (h : sep ∉ xs) :
    splitOnChar sep (xs ++ sep :: ys) = xs :: splitOnChar sep ys := by
  induction xs with
  | nil => simp [splitOnChar]
  | cons c t ih =>
    have hc : c ≠ sep := fun hc => h (hc ▸ List.mem_cons_self c t)
    have ht : sep ∉ t := fun hm => h (List.mem_cons_of_mem c hm)
    simp only [List.cons_append, splitOnChar, if_neg hc, List.append_eq, ih ht,
      List.headD_cons, List.tail_cons]

theorem splitOnChar_no_sep (sep : Char) (xs : List Char) (h : sep ∉ xs) :
    splitOnChar sep xs = [xs] := by
  induction xs with
  | nil => rfl
  | cons c t ih =>
    have hc : c ≠ sep := fun hc => h (hc ▸ List.mem_cons_self c t)
    have ht : sep ∉ t := fun hm => h (List.mem_cons_of_mem c hm)
    simp only [splitOnChar, if_neg hc, ih ht, List.headD_cons, List.tail_cons]

theorem splitOnChar_digits_flatMap (pre : List Char) (sas : List Nat)
    (h : ('-' : Char) ∉ pre) :
    splitOnChar '-' (pre ++ sas.flatMap (fun sa => '-' :: natDigits sa)) =
      pre :: sas.map natDigits := by
  induction sas generalizing pre with
  | nil => simpa using splitOnChar_no_sep '-' pre h
  | cons a rest ih =>
    have hpre : pre ++ (a :: rest).flatMap (fun sa => '-' :: natDigits sa) =
        pre ++ '-' :: (natDigits a ++ rest.flatMap (fun sa => '-' :: natDigits sa)) := by
      simp
    rw [hpre, splitOnChar_append_sep '-' pre _ h,
      ih (natDigits a) (no_dash_of_all_digit (natDigits_all_digit a))]
    rfl

theorem getLastD_cons_ne {α : Type} (a : α) (d : α) :
    ∀ (l : List α), l ≠ [] → (a :: l).getLastD d = l.getLastD d
  | [], h => absurd rfl h
  | b :: t, _ => by
    cases t with
    | nil => rfl
    | cons c u => simp [List.getLastD]

theorem getLastD_map {α β : Type} (f : α → β) (d : β) (d' : α) :
    ∀ (l : List α), l ≠ [] → (l.map f).getLastD d = f (l.getLastD d')
  | [], h => absurd rfl h
  | [a], _ => rfl
  | a :: b :: t, _ => by
    have hne : (b :: t) ≠ ([] : List α) := by simp
    have hm : ((b :: t).map f) ≠ ([] : List β) := by simp
    rw [List.map_cons, getLastD_cons_ne (f a) d _ hm,
      getLastD_cons_ne a d' _ hne]
    exact getLastD_map f d d' (b :: t) hne

/-- C5 counterexample: the claim fails as stated.  The well-formed binary SID
`[1,1,0,0,0,0,0,5,244,1,0,0]` (revision 1, one sub-authority 500, authority 5)
maps directly to RID 500, but `identifierToString` renders it as "S-1-5-500",
which has only 4 dash-separated components, so re-deriving from the textual
form yields Undefined rather than the same RID. -/
theorem C5_counterexample_four_components :
    sid_to_uid (.bytes [1, 1, 0, 0, 0, 0, 0, 5, 244, 1, 0, 0]) 0 = some 500 ∧
    sid_to_string (.bytes [1, 1, 0, 0, 0, 0, 0, 5, 244, 1, 0, 0]) =
      some ("S-1-5-500".data) ∧
    sid_to_uid (.str ("S-1-5-500".data)) 0 = none := by
  refine ⟨by decide, by decide, by decide⟩

/-- C5 (amended): For every well-formed binary identifier buffer **with at
least five sub-authorities**, converting it with `identifierToString` and then
deriving the RID from the resulting textual form yields the same result as
deriving directly from the binary form:
`deriveIdentity(identifierToString(bytes), base) = deriveIdentity(bytes, base)`.
(Five sub-authorities make the textual form reach the 8-component minimum.) -/
theorem C5_roundtrip_of_five_subauths :
    ∀ b base s, validBinSid b = true → 5 ≤ b.getD 1 0 →
      sid_to_string (.bytes b) = some s →
      sid_to_uid (.str s) base = sid_to_uid (.bytes b) base := by
  intro b base s hv h5 hstr
  simp only [validBinSid, Bool.and_eq_true, decide_eq_true_eq] at hv
  obtain ⟨⟨h12, h1⟩, hfit⟩ := hv
  have hne : b ≠ [] := by intro h; subst h; simp at h12
  have hge : ¬ b.length < 12 := by omega
  obtain ⟨sas, hs, hl⟩ := readSubAuthsFrom_ok b (b.getD 1 0) 0 (by omega)
  have hsas : readSubAuths b (b.getD 1 0) = some sas := hs
  have hsasne : sas ≠ [] := by
    intro h; subst h; simp only [List.length_nil] at hl; omega
  rw [sid_to_string, if_neg hne, if_neg hge, sid_to_string_binCore, hsas] at hstr
  have hseq : s = ('S' :: '-' :: natDigits (b.getD 0 0)) ++
      '-' :: natDigits (sidAuthority b) ++
      sas.flatMap (fun sa => '-' :: natDigits sa) := (Option.some.inj hstr).symm
  have hassoc : ('S' :: '-' :: natDigits (b.getD 0 0)) ++
      '-' :: natDigits (sidAuthority b) ++
      sas.flatMap (fun sa => '-' :: natDigits sa) =
      ['S'] ++ '-' :: (natDigits (b.getD 0 0) ++
        '-' :: (natDigits (sidAuthority b) ++
          sas.flatMap (fun sa => '-' :: natDigits sa))) := by
    simp
  have hcomp : textComponents s =
      ['S'] :: natDigits (b.getD 0 0) :: natDigits (sidAuthority b) ::
        sas.map natDigits := by
    rw [textComponents, hseq, hassoc,
      splitOnChar_append_sep '-' ['S'] _ (by decide),
      splitOnChar_append_sep '-' _ _
        (no_dash_of_all_digit (natDigits_all_digit _)),
      splitOnChar_digits_flatMap _ _
        (no_dash_of_all_digit (natDigits_all_digit _))]
  have hlen8 : 8 ≤ (textComponents s).length := by
    rw [hcomp]
    simp only [List.length_cons, List.length_map]
    omega
  have hmapne : sas.map natDigits ≠ [] := by
    intro hm
    exact hsasne (List.map_eq_nil_iff.mp hm)
  have hlast : (textComponents s).getLastD [] = natDigits (sas.getLastD 0) := by
    rw [hcomp, getLastD_cons_ne _ _ _ (by simp), getLastD_cons_ne _ _ _ (by simp [hmapne]),
      getLastD_cons_ne _ _ _ hmapne, getLastD_map natDigits [] 0 sas hsasne]
  have hrid : textRid? s = some (sas.getLastD 0) := by
    rw [textRid?, hlast, pyComponentNat?_natDigits]
  have hS : startsWithSDash s = true := by rw [hseq]; rfl
  have hsne : s ≠ [] := by rw [hseq]; simp
  have hempty : sas.isEmpty = false := by
    cases sas with
    | nil => exact absurd rfl hsasne
    | cons a t => rfl
  rw [sid_to_uid, if_neg hsne, if_pos hS, sid_to_uid_text, if_pos hlen8, hrid]
  rw [sid_to_uid, if_neg hne, if_neg hge, sid_to_uid_binCore, hsas]
  simp only [hempty, Bool.false_eq_true, if_false]

theorem C5_roundtrip_of_five_subauths_witness :
    validBinSid [1, 5, 0, 0, 0, 0, 0, 5,
      21, 0, 0, 0, 1, 0, 0, 0, 2, 0, 0, 0, 3, 0, 0, 0, 81, 4, 0, 0] = true ∧
    sid_to_uid (.str ("S-1-5-21-1-2-3-1105".data)) 200000 =
      sid_to_uid (.bytes [1, 5, 0, 0, 0, 0, 0, 5,
        21, 0, 0, 0, 1, 0, 0, 0, 2, 0, 0, 0, 3, 0, 0, 0, 81, 4, 0, 0]) 200000 :=
  ⟨by decide,
    C5_roundtrip_of_five_subauths _ 200000 _ (by decide) (by decide) (by decide)⟩

/-- FreeIPA group-name sanitization of `ad_sync.py` lines 510-515:
`groupname.replace(' ', '-').replace('(', '').replace(')', '')`. -/
def sanitizeName (s : String) : String :=
  String.mk (s.data.filterMap (fun c =>
    if c = ' ' then some '-'
    else if c = '(' then none
    else if c = ')' then none
    else some c))

/-- Association-list lookup, modelling a Python dict read
(`first match wins`, which is sound because keys are unique in FreeIPA). -/
def alookup {α : Type} (k : String) : List (String × α) → Option α
  | [] => none
  | (k', v) :: t => if k = k' then some v else alookup k t

/-- Boolean membership test on a list of names (`x in l`). -/
def bcontains (x : String) : List String → Bool
  | [] => false
  | y :: t => if x = y then true else bcontains x t

/-- `set.add`, with the model fixing iteration order to insertion order. -/
def insertSet (x : String) (s : List String) : List String :=
  if bcontains x s then s else s ++ [x]

/-- Update the value stored under key `k` of an association list in place
(the FreeIPA server's view of a record update). -/
def updAssoc {α : Type} (k : String) (f : α → α) :
    List (String × α) → List (String × α)
  | [] => []
  | (k1, v) :: t => (if k1 = k then (k1, f v) else (k1, v)) :: updAssoc k f t

namespace ADSync

/-- The mapped FreeIPA attribute record (the `ipa_user` dict built by
`map_user_attributes`); `none` means the key is absent from the dict.  The
mapper itself (a config-driven field copy) is out of the claims' scope, so the
per-user reconciler takes the mapped record as its input. -/
structure IpaAttrs where
  uid : Option String := none
  givenname : Option String := none
  sn : Option String := none
  cn : Option String := none
  mail : Option String := none
  telephonenumber : Option String := none
  title : Option String := none
  uidnumber : Option Nat := none
  gidnumber : Option Nat := none
  loginshell : Option String := none
  homedirectory : Option String := none
deriving DecidableEq

/-- One source user as it reaches the per-user loop of `sync_users`:
its `sAMAccountName`, its `_is_disabled` flag and its mapped attributes. -/
structure ADUserRec where
  username : String
  isDisabled : Bool := false
  attrs : IpaAttrs := {}
deriving DecidableEq

/-- One source group record as it reaches `sync_groups`/`sync_memberships`. -/
structure ADGroupRec where
  name : String
  description : Option String := none
  gidNumber : Option Nat := none
  member : List String := []
deriving DecidableEq

/-- Result of resolving one member DN against AD (lines 582-613). -/
inductive ResolveRes where
  | notFound
  | noSam
  | userEntry (sam : String)
  | groupEntry (sam : String)

/-- The source snapshot: what the AD queries return during one run, plus the
point lookup used by membership resolution. -/
structure ADSnapshot where
  users : List ADUserRec := []
  groups : List ADGroupRec := []
  resolve : String → ResolveRes := fun _ => .notFound

/-- Sync-relevant configuration (`config['sync']` plus `id_range_base`). -/
structure SyncConfig where
  idRangeBase : Nat := 200000
  userInclude : List String := []
  userExclude : List String := []
  groupInclude : List String := []
  groupExclude : List String := []
  syncUsers : Bool := true
  syncGroups : Bool := true
  syncMemberships : Bool := true

/-- A FreeIPA user record as read by `user_show` (only the account-lock flag
is consulted by the reconciler). -/
structure IPAUserRec where
  nsaccountlock : Bool := false
deriving DecidableEq

/-- A FreeIPA group record as read by `group_show`. -/
structure IPAGroupRec where
  member_user : List String := []
  member_group : List String := []
deriving DecidableEq

/-- The target FreeIPA state read and mutated through the collaborator. -/
structure IPAState where
  idrangeExists : Bool := true
  users : List (String × IPAUserRec) := []
  groups : List (String × IPAGroupRec) := []
deriving DecidableEq

/-- Run statistics (`self.stats`). -/
structure Stats where
  users_created : Nat := 0
  users_updated : Nat := 0
  users_skipped : Nat := 0
  users_disabled : Nat := 0
  users_enabled : Nat := 0
  groups_created : Nat := 0
  groups_updated : Nat := 0
  memberships_added : Nat := 0
deriving DecidableEq

/-- The keyword arguments passed to `user_mod` on the force-update path
(lines 410-428). -/
structure ModParams where
  givenname : Option String := none
  sn : Option String := none
  mail : Option String := none
  telephonenumber : Option String := none
  title : Option String := none
  uidnumber : Option Nat := none
  gidnumber : Option Nat := none
  loginshell : Option String := none
  homedirectory : Option String := none
deriving DecidableEq

/-- The keyword arguments passed to `user_add` on the create path
(lines 469-484). -/
structure AddParams where
  mail : Option String := none
  telephonenumber : Option String := none
  title : Option String := none
  uidnumber : Option Nat := none
  gidnumber : Option Nat := none
  loginshell : Option String := none
  homedirectory : Option String := none
deriving DecidableEq

/-- The keyword arguments passed to `group_add` (lines 543-548). -/
structure GroupParams where
  description : Option String := none
  gidnumber : Option Nat := none
deriving DecidableEq

/-- One observable event of a run: a collaborator read, a dry-run intent log,
a mutating collaborator call, or a non-mutating log line. -/
inductive Ev where
  | idrange_show (found : Bool)
  | idrange_add (ipabaseid ipabaserid ipasecondarybaserid : Nat)
  | skippedUser (u : String)
  | user_show (u : String) (found : Bool)
  | wouldUpdateUser (u : String) (disabled : Bool)
  | wouldCreateUser (u : String) (disabled : Bool)
  | user_mod (u : String) (p : ModParams)
  | user_disable (u : String)
  | user_enable (u : String)
  | statusUnchanged (u : String) (disabled : Bool)
  | user_add (uid givenname sn cn : String) (p : AddParams)
  | group_show (g : String) (found : Bool)
  | wouldUpdateGroup (g : String)
  | updatedGroupLog (g : String)
  | skipGroupLog (g : String)
  | wouldCreateGroup (g : String)
  | group_add (g : String) (p : GroupParams)
  | membershipLookupFailed (g : String)
  | wouldAddUserMember (g u : String)
  | group_add_member_user (g u : String)
  | wouldAddGroupMember (g m : String)
  | group_add_member_group (g m : String)
deriving DecidableEq

/-- Events that mutate the target (the target-mutating collaborator calls). -/
def Ev.isMutating : Ev → Bool
  | .idrange_add _ _ _ => true
  | .user_mod _ _ => true
  | .user_disable _ => true
  | .user_enable _ => true
  | .user_add _ _ _ _ _ => true
  | .group_add _ _ => true
  | .group_add_member_user _ _ => true
  | .group_add_member_group _ _ => true
  | _ => false

/-- The best-effort identity-range creation call. -/
def Ev.isIdrangeAdd : Ev → Bool
  | .idrange_add _ _ _ => true
  | _ => false

/-- An AddMember call. -/
def Ev.isAddMemberCall : Ev → Bool
  | .group_add_member_user _ _ => true
  | .group_add_member_group _ _ => true
  | _ => false

/-- The status-reconciliation outcome of a found user: the Disable call, the
Enable call, or the status-unchanged no-op log. -/
def Ev.isStatusEv : Ev → Bool
  | .user_disable _ => true
  | .user_enable _ => true
  | .statusUnchanged _ _ => true
  | _ => false

/-- `should_sync_user` (lines 362-371). -/
def shouldSyncUser (cfg : SyncConfig) (username : String) : Bool :=
  if !cfg.userInclude.isEmpty && !bcontains username cfg.userInclude then false
  else if !cfg.userExclude.isEmpty && bcontains username cfg.userExclude then false
  else true

/-- `should_sync_group` (lines 373-382). -/
def shouldSyncGroup (cfg : SyncConfig) (groupname : String) : Bool :=
  if !cfg.groupInclude.isEmpty && !bcontains groupname cfg.groupInclude then false
  else if !cfg.groupExclude.isEmpty && bcontains groupname cfg.groupExclude then false
  else true

/-- The `user_mod` keyword set built on the force path (lines 410-428). -/
def modParamsOf (a : IpaAttrs) : ModParams :=
  { givenname := a.givenname, sn := a.sn, mail := a.mail,
    telephonenumber := a.telephonenumber, title := a.title,
    uidnumber := a.uidnumber, gidnumber := a.gidnumber,
    loginshell := a.loginshell, homedirectory := a.homedirectory }

/-- `if params:` — Python dict truthiness of the `user_mod` keyword set. -/
def ModParams.isEmptyP (p : ModParams) : Bool :=
  p.givenname.isNone && p.sn.isNone && p.mail.isNone &&
  p.telephonenumber.isNone && p.title.isNone && p.uidnumber.isNone &&
  p.gidnumber.isNone && p.loginshell.isNone && p.homedirectory.isNone

/-- The `user_add` keyword set built on the create path (lines 469-484). -/
def addParamsOf (a : IpaAttrs) : AddParams :=
  { mail := a.mail, telephonenumber := a.telephonenumber, title := a.title,
    uidnumber := a.uidnumber, gidnumber := a.gidnumber,
    loginshell := a.loginshell, homedirectory := a.homedirectory }

/-- `user_disable` / `user_enable`: set the account lock of an existing user
(no-op when the key does not exist, as nothing in the claims exercises the
key-mismatch corner). -/
def setUserLock (st : IPAState) (u : String) (locked : Bool) : IPAState :=
  { st with users := updAssoc u (fun _ => { nsaccountlock := locked }) st.users }

/-- `user_add`: a fresh user record, created unlocked. -/
def addUser (st : IPAState) (u : String) : IPAState :=
  { st with users := st.users ++ [(u, { nsaccountlock := false })] }

/-- `group_add`: a fresh group record with no members. -/
def addGroup (st : IPAState) (g : String) : IPAState :=
  { st with groups := st.groups ++ [(g, {})] }

/-- `group_add_member(g, o_user=u)`. -/
def addUserMember (st : IPAState) (g u : String) : IPAState :=
  { st with groups := updAssoc g (fun r => { r with member_user := r.member_user ++ [u] }) st.groups }

/-- `group_add_member(g, o_group=m)`. -/
def addGroupMember (st : IPAState) (g m : String) : IPAState :=
  { st with groups := updAssoc g (fun r => { r with member_group := r.member_group ++ [m] }) st.groups }

/-- The body of the per-user loop of `sync_users` (lines 389-498): one source
user against the current target state. -/
def syncUserStep (cfg : SyncConfig) (dry force : Bool) (u : ADUserRec)
    (st : IPAState) (stats : Stats) : List Ev × IPAState × Stats :=
  if u.username = "" || !shouldSyncUser cfg u.username then
    ([.skippedUser u.username], st,
     { stats with users_skipped := stats.users_skipped + 1 })
  else
    match alookup u.username st.users with
    | some rec0 =>
      if dry then
        ([.user_show u.username true, .wouldUpdateUser u.username u.isDisabled],
         st, { stats with users_updated := stats.users_updated + 1 })
      else
        let tf : List Ev :=
          if force && !(modParamsOf u.attrs).isEmptyP then
            [.user_mod u.username (modParamsOf u.attrs)]
          else []
        if u.isDisabled && !rec0.nsaccountlock then
          ([.user_show u.username true] ++ tf ++ [.user_disable u.username],
           setUserLock st u.username true,
           { stats with users_disabled := stats.users_disabled + 1,
                        users_updated := stats.users_updated + 1 })
        else if !u.isDisabled && rec0.nsaccountlock then
          ([.user_show u.username true] ++ tf ++ [.user_enable u.username],
           setUserLock st u.username false,
           { stats with users_enabled := stats.users_enabled + 1,
                        users_updated := stats.users_updated + 1 })
        else
          ([.user_show u.username true] ++ tf ++
             [.statusUnchanged u.username u.isDisabled],
           st, { stats with users_updated := stats.users_updated + 1 })
    | none =>
      if dry then
        ([.user_show u.username false, .wouldCreateUser u.username u.isDisabled],
         st, { stats with users_created := stats.users_created + 1 })
      else
        let uidK := u.attrs.uid.getD u.username
        let gK := u.attrs.givenname.getD u.username
        let sK := u.attrs.sn.getD u.username
        let cK := u.attrs.cn.getD (gK ++ " " ++ sK)
        if u.isDisabled then
          ([.user_show u.username false,
            .user_add uidK gK sK cK (addParamsOf u.attrs),
            .user_disable u.username],
           setUserLock (addUser st uidK) u.username true,
           { stats with users_created := stats.users_created + 1 })
        else
          ([.user_show u.username false,
            .user_add uidK gK sK cK (addParamsOf u.attrs)],
           addUser st uidK,
           { stats with users_created := stats.users_created + 1 })

/-- `sync_users` (lines 384-498): the per-user loop over the snapshot. -/
def sync_users (cfg : SyncConfig) (dry force : Bool) :
    List ADUserRec → IPAState → Stats → List Ev × IPAState × Stats
  | [], st, stats => ([], st, stats)
  | u :: rest, st, stats =>
    let r := syncUserStep cfg dry force u st stats
    let r2 := sync_users cfg dry force rest r.2.1 r.2.2
    (r.1 ++ r2.1, r2.2.1, r2.2.2)

/-- The body of the per-group loop of `sync_groups` (lines 505-556). -/
def syncGroupStep (cfg : SyncConfig) (dry force : Bool) (g : ADGroupRec)
    (st : IPAState) (stats : Stats) : List Ev × IPAState × Stats :=
  if g.name = "" || !shouldSyncGroup cfg g.name then ([], st, stats)
  else
    let gname := sanitizeName g.name
    match alookup gname st.groups with
    | some _ =>
      if !force then
        ([.group_show gname true, .skipGroupLog gname], st,
         { stats with groups_updated := stats.groups_updated + 1 })
      else if dry then
        ([.group_show gname true, .wouldUpdateGroup gname], st,
         { stats with groups_updated := stats.groups_updated + 1 })
      else
        ([.group_show gname true, .updatedGroupLog gname], st,
         { stats with groups_updated := stats.groups_updated + 1 })
    | none =>
      if dry then
        ([.group_show gname false, .wouldCreateGroup gname], st,
         { stats with groups_created := stats.groups_created + 1 })
      else
        let descr : Option String :=
          match g.description with
          | some d => if d = "" then none else some d
          | none => none
        ([.group_show gname false,
          .group_add gname { description := descr, gidnumber := g.gidNumber }],
         addGroup st gname,
         { stats with groups_created := stats.groups_created + 1 })

/-- `sync_groups` (lines 500-556): the per-group loop over the snapshot. -/
def sync_groups (cfg : SyncConfig) (dry force : Bool) :
    List ADGroupRec → IPAState → Stats → List Ev × IPAState × Stats
  | [], st, stats => ([], st, stats)
  | g :: rest, st, stats =>
    let r := syncGroupStep cfg dry force g st stats
    let r2 := sync_groups cfg dry force rest r.2.1 r.2.2
    (r.1 ++ r2.1, r2.2.1, r2.2.2)

/-- The member-classification loop of `sync_memberships` (lines 579-613):
resolved user names and resolved group names, as insertion-ordered sets. -/
def resolveMembersAux (resolve : String → ResolveRes) :
    List String → List String → List String → List String × List String
  | [], us, gs => (us, gs)
  | dn :: rest, us, gs =>
    match resolve dn with
    | .userEntry s => resolveMembersAux resolve rest (insertSet s us) gs
    | .groupEntry s => resolveMembersAux resolve rest us (insertSet s gs)
    | _ => resolveMembersAux resolve rest us gs

/-- `ad_usernames` and `ad_groupnames` for one source group. -/
def resolveMembers (resolve : String → ResolveRes) (members : List String) :
    List String × List String :=
  resolveMembersAux resolve members [] []

/-- The live loop adding missing user members (lines 622-631). -/
def addUserMembersLive (gname : String) :
    List String → IPAState → Stats → List Ev × IPAState × Stats
  | [], st, stats => ([], st, stats)
  | u :: rest, st, stats =>
    let r := addUserMembersLive gname rest (addUserMember st gname u)
      { stats with memberships_added := stats.memberships_added + 1 }
    (.group_add_member_user gname u :: r.1, r.2.1, r.2.2)

/-- The live loop adding missing group members (lines 634-645); the member
name is sanitized right before the call. -/
def addGroupMembersLive (gname : String) :
    List String → IPAState → Stats → List Ev × IPAState × Stats
  | [], st, stats => ([], st, stats)
  | m :: rest, st, stats =>
    let r := addGroupMembersLive gname rest
      (addGroupMember st gname (sanitizeName m))
      { stats with memberships_added := stats.memberships_added + 1 }
    (.group_add_member_group gname (sanitizeName m) :: r.1, r.2.1, r.2.2)

/-- The body of the per-group loop of `sync_memberships` (lines 563-648).
A missing target group makes `group_show` raise, which the outer handler
turns into a logged failure for that group. -/
def membershipStep (cfg : SyncConfig) (dry : Bool)
    (resolve : String → ResolveRes) (g : ADGroupRec)
    (st : IPAState) (stats : Stats) : List Ev × IPAState × Stats :=
  if g.name = "" || !shouldSyncGroup cfg g.name then ([], st, stats)
  else
    let gname := sanitizeName g.name
    let sets := resolveMembers resolve g.member
    match alookup gname st.groups with
    | none => ([.group_show gname false, .membershipLookupFailed gname], st, stats)
    | some rec0 =>
      let usersToAdd := sets.1.filter (fun u => !bcontains u rec0.member_user)
      let groupsToAdd := sets.2.filter (fun m => !bcontains m rec0.member_group)
      if dry then
        ([.group_show gname true] ++
           usersToAdd.map (fun u => .wouldAddUserMember gname u) ++
           groupsToAdd.map (fun m => .wouldAddGroupMember gname m),
         st, stats)
      else
        let ru := addUserMembersLive gname usersToAdd st stats
        let rg := addGroupMembersLive gname groupsToAdd ru.2.1 ru.2.2
        ([.group_show gname true] ++ ru.1 ++ rg.1, rg.2.1, rg.2.2)

/-- `sync_memberships` (lines 558-648): the per-group loop. -/
def sync_memberships (cfg : SyncConfig) (dry : Bool)
    (resolve : String → ResolveRes) :
    List ADGroupRec → IPAState → Stats → List Ev × IPAState × Stats
  | [], st, stats => ([], st, stats)
  | g :: rest, st, stats =>
    let r := membershipStep cfg dry resolve g st stats
    let r2 := sync_memberships cfg dry resolve rest r.2.1 r.2.2
    (r.1 ++ r2.1, r2.2.1, r2.2.2)

/-- `ensure_id_range` (lines 186-223): read the range; create it when absent.
It runs before the dry-run check, so the creation call happens in dry runs
too. -/
def ensure_id_range (idRangeBase : Nat) (st : IPAState) : List Ev × IPAState :=
  if st.idrangeExists then ([.idrange_show true], st)
  else
    ([.idrange_show false,
      .idrange_add idRangeBase ((idRangeBase % 1000000000) / 1000)
        (100000000 + (idRangeBase % 1000000000) / 1000)],
     { st with idrangeExists := true })

/-- `ADSync.sync` (lines 650-690): identity-range setup, then the three
phases, gated by their configuration switches; statistics start at zero. -/
def sync (snap : ADSnapshot) (cfg : SyncConfig) (st : IPAState)
    (dry forceUsers forceGroups : Bool) : List Ev × IPAState × Stats :=
  let r0 := ensure_id_range cfg.idRangeBase st
  let r1 := if cfg.syncUsers then
      sync_users cfg dry forceUsers snap.users r0.2 {}
    else ([], r0.2, {})
  let r2 := if cfg.syncGroups then
      sync_groups cfg dry forceGroups snap.groups r1.2.1 r1.2.2
    else ([], r1.2.1, r1.2.2)
  let r3 := if cfg.syncMemberships then
      sync_memberships cfg dry snap.resolve snap.groups r2.2.1 r2.2.2
    else ([], r2.2.1, r2.2.2)
  (r0.1 ++ r1.1 ++ r2.1 ++ r3.1, r3.2.1, r3.2.2)

end ADSync

open ADSync

theorem bcontains_iff (x : String) : ∀ l : List String, bcontains x l = true ↔ x ∈ l := by
  intro l
  induction l with
  | nil => simp [bcontains]
  | cons y t ih =>
    by_cases h : x = y
    · subst h; simp [bcontains]
    · simp [bcontains, if_neg h, ih, h]

/-- C6 counterexample: the claim fails as stated.  For the disabled source
user "jdoe" with no mapped attributes, absent from the target, the emitted
Create carries common name "jdoe jdoe" — the concatenation of the fallen-back
given name and surname — and not the login name "jdoe" that the claim
predicts for the common-name fallback. -/
theorem C6_counterexample_cn_not_login :
    (syncUserStep {} false false { username := "jdoe", isDisabled := true } {} {}).1 =
      [.user_show "jdoe" false,
       .user_add "jdoe" "jdoe" "jdoe" "jdoe jdoe" {},
       .user_disable "jdoe"] ∧
    "jdoe jdoe" ≠ "jdoe" :=
  ⟨by decide, by decide⟩

/-- C6 (amended): For every in-scope source principal whose target lookup
returns NotFound, the Principal Reconciler emits a Create whose positional
login, given name and surname each fall back to the login name when absent,
and whose common name falls back to "<given> <surname>" built from the
already-resolved given name and surname; a trailing Disable follows when the
source record's disabled flag is set; the created counter increments by
exactly 1.  In particular the disabled user "jdoe" absent from the target
produces one Create then one Disable with `users_created = 1`. -/
theorem C6_create_path :
    (∀ (cfg : SyncConfig) (force : Bool) (u : ADUserRec) (st : IPAState)
        (stats : Stats),
      u.username ≠ "" → shouldSyncUser cfg u.username = true →
      alookup u.username st.users = none →
      (syncUserStep cfg false force u st stats).1 =
        [.user_show u.username false,
         .user_add (u.attrs.uid.getD u.username)
           (u.attrs.givenname.getD u.username)
           (u.attrs.sn.getD u.username)
           (u.attrs.cn.getD
             (u.attrs.givenname.getD u.username ++ " " ++
              u.attrs.sn.getD u.username))
           (addParamsOf u.attrs)] ++
          (if u.isDisabled then [.user_disable u.username] else []) ∧
      (syncUserStep cfg false force u st stats).2.2 =
        { stats with users_created := stats.users_created + 1 }) ∧
    ((sync_users {} false false [{ username := "jdoe", isDisabled := true }]
        {} {}).1 =
      [.user_show "jdoe" false,
       .user_add "jdoe" "jdoe" "jdoe" "jdoe jdoe" {},
       .user_disable "jdoe"] ∧
     (sync_users {} false false [{ username := "jdoe", isDisabled := true }]
        {} {}).2.2.users_created = 1) := by
  refine ⟨?_, by decide, by decide⟩
  intro cfg force u st stats hne hscope hlookup
  have hcond : (decide (u.username = "") || !shouldSyncUser cfg u.username) = false := by
    simp [hne, hscope]
  rw [syncUserStep, if_neg (by simp [hcond]), hlookup]
  cases hd : u.isDisabled <;> simp

/-- C6 witness: the amended theorem applied to a concrete user "ann" with a
given name but no surname or common name. -/
theorem C6_create_path_witness :
    (syncUserStep {} false true
        { username := "ann", isDisabled := false,
          attrs := { givenname := some "Ann" } } {} {}).1 =
      [.user_show "ann" false, .user_add "ann" "Ann" "ann" "Ann ann"
        (addParamsOf { givenname := some "Ann" })] ++
        (if false then [.user_disable "ann"] else []) :=
  ((C6_create_path.1 {} true
      { username := "ann", isDisabled := false,
        attrs := { givenname := some "Ann" } } {} {}
      (by decide) (by decide) (by decide)).1)

/-- C7: For every in-scope source principal found on the target, and for both
values of the force flag, the live reconciliation path compares the source
disabled/enabled flag with the target's lock state and emits exactly one
status event: Disable iff source disabled and target unlocked, Enable iff
source enabled and target locked, and the status-unchanged no-op otherwise;
the right-hand side does not mention force, which is the claimed
force-independence.  (A dry run logs a single would-update intent instead;
the claim concerns the reconciler's emitted status action.) -/
theorem C7_status_reconciliation :
    ∀ (cfg : SyncConfig) (force : Bool) (u : ADUserRec) (st : IPAState)
      (stats : Stats) (r : IPAUserRec),
      u.username ≠ "" → shouldSyncUser cfg u.username = true →
      alookup u.username st.users = some r →
      (syncUserStep cfg false force u st stats).1.filter Ev.isStatusEv =
        [if u.isDisabled && !r.nsaccountlock then .user_disable u.username
         else if !u.isDisabled && r.nsaccountlock then .user_enable u.username
         else .statusUnchanged u.username u.isDisabled] := by
  intro cfg force u st stats r hne hscope hlookup
  have hcond : (decide (u.username = "") || !shouldSyncUser cfg u.username) = false := by
    simp [hne, hscope]
  rw [syncUserStep, if_neg (by simp [hcond]), hlookup]
  by_cases hf : (force && !(modParamsOf u.attrs).isEmptyP) = true <;>
    cases hd : u.isDisabled <;> cases hl : r.nsaccountlock <;>
      simp [hf, hd, hl, Ev.isStatusEv, List.filter]

/-- C7 witness: the theorem applied to a disabled source user "bob" whose
target record is unlocked — the status event is the Disable call. -/
theorem C7_status_reconciliation_witness :
    (syncUserStep {} false false { username := "bob", isDisabled := true }
        { users := [("bob", { nsaccountlock := false })] } {}).1.filter
        Ev.isStatusEv =
      [if true && !false then Ev.user_disable "bob"
       else if !true && false then Ev.user_enable "bob"
       else Ev.statusUnchanged "bob" true] :=
  C7_status_reconciliation {} false { username := "bob", isDisabled := true }
    { users := [("bob", { nsaccountlock := false })] } {}
    { nsaccountlock := false } (by decide) (by decide) (by decide)

/-- C9: For every in-scope source group found on the target while force is
false, the Group Reconciler performs no mutation (the returned target state is
exactly the input state; the trace holds only the group_show read and a skip
log) yet increments the groups-updated counter by exactly 1, in both dry and
live modes. -/
theorem C9_found_noforce_skip_counts_updated :
    ∀ (cfg : SyncConfig) (dry : Bool) (g : ADGroupRec) (st : IPAState)
      (stats : Stats) (r : IPAGroupRec),
      g.name ≠ "" → shouldSyncGroup cfg g.name = true →
      alookup (sanitizeName g.name) st.groups = some r →
      syncGroupStep cfg dry false g st stats =
        ([.group_show (sanitizeName g.name) true,
          .skipGroupLog (sanitizeName g.name)], st,
         { stats with groups_updated := stats.groups_updated + 1 }) := by
  intro cfg dry g st stats r hne hscope hlookup
  have hcond : (decide (g.name = "") || !shouldSyncGroup cfg g.name) = false := by
    simp [hne, hscope]
  rw [syncGroupStep, if_neg (by simp [hcond])]
  simp only [hlookup]
  rfl

/-- C9 witness: the theorem applied to a concrete group "eng" that already
exists on the target. -/
theorem C9_found_noforce_skip_counts_updated_witness :
    syncGroupStep {} false false { name := "eng" }
        { groups := [("eng", {})] } {} =
      ([Ev.group_show (sanitizeName "eng") true,
        Ev.skipGroupLog (sanitizeName "eng")],
       { groups := [("eng", {})] },
       { ({} : Stats) with groups_updated := ({} : Stats).groups_updated + 1 }) :=
  C9_found_noforce_skip_counts_updated {} false { name := "eng" }
    { groups := [("eng", {})] } {} {} (by decide) (by decide) (by decide)

theorem addUserMembersLive_trace (gname : String) :
    ∀ (us : List String) (st : IPAState) (stats : Stats),
      (addUserMembersLive gname us st stats).1 =
        us.map (fun u => Ev.group_add_member_user gname u) := by
  intro us
  induction us with
  | nil => intro st stats; rfl
  | cons u rest ih => intro st stats; simp [addUserMembersLive, ih]

theorem addGroupMembersLive_trace (gname : String) :
    ∀ (ms : List String) (st : IPAState) (stats : Stats),
      (addGroupMembersLive gname ms st stats).1 =
        ms.map (fun m => Ev.group_add_member_group gname (sanitizeName m)) := by
  intro ms
  induction ms with
  | nil => intro st stats; rfl
  | cons m rest ih => intro st stats; simp [addGroupMembersLive, ih]

/-- C8 counterexample: the claim fails as stated.  Source member group
"dev ops" sanitizes to "dev-ops", which is already a member of the target
group, so the claimed `(sanitized sourceGroupNames) - currentGroupMembers`
difference is empty; the code nevertheless emits
`group_add_member("g", "dev-ops")` because it takes the difference on the
unsanitized names and sanitizes only afterwards. -/
theorem C8_counterexample_diff_before_sanitize :
    (membershipStep {} false
        (fun dn => if dn = "d1" then .groupEntry "dev ops" else .notFound)
        { name := "g", member := ["d1"] }
        { groups := [("g", { member_group := ["dev-ops"] })] } {}).1 =
      [.group_show "g" true, .group_add_member_group "g" "dev-ops"] ∧
    sanitizeName "dev ops" = "dev-ops" ∧
    bcontains "dev-ops" ["dev-ops"] = true :=
  ⟨by decide, by decide, by decide⟩

theorem bcontains_eq_false (x : String) (l : List String) :
    bcontains x l = false ↔ x ∉ l := by
  rw [← bcontains_iff x l]
  cases bcontains x l <;> simp

/-- C8 (amended): For every reconciled source group found on the target, the
Membership Reconciler emits user AddMember actions exactly for
`sourceUserNames - currentUserMembers`, and group AddMember actions exactly
for the elements of `sourceGroupNames - currentGroupMembers` with the member
name sanitized only after the set difference, immediately before the call —
so a member group whose sanitized form is already a member is still
re-added. -/
theorem C8_membership_diff :
    ∀ (cfg : SyncConfig) (resolve : String → ResolveRes) (g : ADGroupRec)
      (st : IPAState) (stats : Stats) (r : IPAGroupRec),
      g.name ≠ "" → shouldSyncGroup cfg g.name = true →
      alookup (sanitizeName g.name) st.groups = some r →
      (∀ u, Ev.group_add_member_user (sanitizeName g.name) u ∈
          (membershipStep cfg false resolve g st stats).1 ↔
        (u ∈ (resolveMembers resolve g.member).1 ∧ u ∉ r.member_user)) ∧
      (∀ m, Ev.group_add_member_group (sanitizeName g.name) m ∈
          (membershipStep cfg false resolve g st stats).1 ↔
        ∃ m₀, m₀ ∈ (resolveMembers resolve g.member).2 ∧
          m₀ ∉ r.member_group ∧ m = sanitizeName m₀) := by
  intro cfg resolve g st stats r hne hscope hlookup
  have hcond : (decide (g.name = "") || !shouldSyncGroup cfg g.name) = false := by
    simp [hne, hscope]
  have hstep : (membershipStep cfg false resolve g st stats).1 =
      [Ev.group_show (sanitizeName g.name) true] ++
        ((resolveMembers resolve g.member).1.filter
          (fun u => !bcontains u r.member_user)).map
          (fun u => Ev.group_add_member_user (sanitizeName g.name) u) ++
        ((resolveMembers resolve g.member).2.filter
          (fun m => !bcontains m r.member_group)).map
          (fun m => Ev.group_add_member_group (sanitizeName g.name)
            (sanitizeName m)) := by
    rw [membershipStep, if_neg (by simp [hcond])]
    simp only [hlookup]
    simp only [Bool.false_eq_true, if_false]
    rw [addUserMembersLive_trace, addGroupMembersLive_trace]
  constructor
  · intro u
    rw [hstep]
    simp [List.mem_filter, bcontains_eq_false]
  · intro m
    rw [hstep]
    simp [List.mem_filter, bcontains_eq_false]
    constructor
    · rintro ⟨a, ⟨h1, h2⟩, h3⟩
      exact ⟨a, h1, h2, h3.symm⟩
    · rintro ⟨a, h1, h2, h3⟩
      exact ⟨a, ⟨h1, h2⟩, h3.symm⟩

/-- C8 witness: the amended theorem applied to a concrete group "g" with one
member reference resolving to user "alice". -/
theorem C8_membership_diff_witness :
    Ev.group_add_member_user (sanitizeName "g") "alice" ∈
        (membershipStep {} false
          (fun dn => if dn = "d1" then .userEntry "alice" else .notFound)
          { name := "g", member := ["d1"] }
          { groups := [("g", {})] } {}).1 ↔
      ("alice" ∈ (resolveMembers
          (fun dn => if dn = "d1" then .userEntry "alice" else .notFound)
          ["d1"]).1 ∧
       "alice" ∉ (({} : IPAGroupRec)).member_user) :=
  (C8_membership_diff {} _ { name := "g", member := ["d1"] }
    { groups := [("g", {})] } {} {} (by decide) (by decide) (by decide)).1 "alice"

theorem alookup_updAssoc {α : Type} (k : String) (f : α → α) :
    ∀ (l : List (String × α)) (g : String),
      alookup g (updAssoc k f l) =
        if g = k then (alookup g l).map f else alookup g l := by
  intro l
  induction l with
  | nil => intro g; by_cases h : g = k <;> simp [updAssoc, alookup, h]
  | cons p t ih =>
    intro g
    obtain ⟨k1, v⟩ := p
    rw [updAssoc]
    by_cases h1 : k1 = k
    · subst h1
      rw [if_pos rfl]
      by_cases h2 : g = k1
      · subst h2
        rw [alookup, if_pos rfl, if_pos rfl, alookup, if_pos rfl]
        rfl
      · rw [alookup, if_neg h2, ih g, if_neg h2, if_neg h2, alookup, if_neg h2]
    · rw [if_neg h1]
      by_cases h2 : g = k1
      · subst h2
        rw [alookup, if_pos rfl, if_neg h1, alookup, if_pos rfl]
      · rw [alookup, if_neg h2, ih g]
        by_cases h3 : g = k
        · rw [if_pos h3, if_pos h3, alookup, if_neg h2]
        · rw [if_neg h3, if_neg h3, alookup, if_neg h2]

/-- Membership can only grow from `st` to `st'`: every group present before
is still present, and both member sets are supersets of what they were. -/
def memberGrows (st st' : IPAState) : Prop :=
  ∀ g r, alookup g st.groups = some r →
    ∃ r', alookup g st'.groups = some r' ∧
      r.member_user ⊆ r'.member_user ∧ r.member_group ⊆ r'.member_group

theorem memberGrows_refl (st : IPAState) : memberGrows st st :=
  fun _ r h => ⟨r, h, fun _ hx => hx, fun _ hx => hx⟩

theorem memberGrows_trans {s1 s2 s3 : IPAState}
    (h12 : memberGrows s1 s2) (h23 : memberGrows s2 s3) :
    memberGrows s1 s3 := by
  intro g r h
  obtain ⟨r2, h2, hu2, hg2⟩ := h12 g r h
  obtain ⟨r3, h3, hu3, hg3⟩ := h23 g r2 h2
  exact ⟨r3, h3, fun x hx => hu3 (hu2 hx), fun x hx => hg3 (hg2 hx)⟩

theorem memberGrows_addUserMember (st : IPAState) (g u : String) :
    memberGrows st (addUserMember st g u) := by
  intro g0 r h
  have hu := alookup_updAssoc g
    (fun r0 : IPAGroupRec => { r0 with member_user := r0.member_user ++ [u] })
    st.groups g0
  by_cases hg : g0 = g
  · rw [if_pos hg] at hu
    refine ⟨{ r with member_user := r.member_user ++ [u] }, ?_,
      List.subset_append_left _ _, fun x hx => hx⟩
    show alookup g0 (updAssoc g _ st.groups) = _
    rw [hu, h]
    rfl
  · rw [if_neg hg] at hu
    refine ⟨r, ?_, fun x hx => hx, fun x hx => hx⟩
    show alookup g0 (updAssoc g _ st.groups) = _
    rw [hu, h]

theorem memberGrows_addGroupMember (st : IPAState) (g m : String) :
    memberGrows st (addGroupMember st g m) := by
  intro g0 r h
  have hu := alookup_updAssoc g
    (fun r0 : IPAGroupRec => { r0 with member_group := r0.member_group ++ [m] })
    st.groups g0
  by_cases hg : g0 = g
  · rw [if_pos hg] at hu
    refine ⟨{ r with member_group := r.member_group ++ [m] }, ?_,
      fun x hx => hx, List.subset_append_left _ _⟩
    show alookup g0 (updAssoc g _ st.groups) = _
    rw [hu, h]
    rfl
  · rw [if_neg hg] at hu
    refine ⟨r, ?_, fun x hx => hx, fun x hx => hx⟩
    show alookup g0 (updAssoc g _ st.groups) = _
    rw [hu, h]

theorem memberGrows_addUserMembersLive (g : String) :
    ∀ (us : List String) (st : IPAState) (stats : Stats),
      memberGrows st (addUserMembersLive g us st stats).2.1 := by
  intro us
  induction us with
  | nil => intro st stats; exact memberGrows_refl st
  | cons u rest ih =>
    intro st stats
    exact memberGrows_trans (memberGrows_addUserMember st g u) (ih _ _)

theorem memberGrows_addGroupMembersLive (g : String) :
    ∀ (ms : List String) (st : IPAState) (stats : Stats),
      memberGrows st (addGroupMembersLive g ms st stats).2.1 := by
  intro ms
  induction ms with
  | nil => intro st stats; exact memberGrows_refl st
  | cons m rest ih =>
    intro st stats
    exact memberGrows_trans (memberGrows_addGroupMember st g (sanitizeName m)) (ih _ _)

theorem memberGrows_membershipStep (cfg : SyncConfig) (dry : Bool)
    (resolve : String → ResolveRes) (g : ADGroupRec) (st : IPAState)
    (stats : Stats) :
    memberGrows st (membershipStep cfg dry resolve g st stats).2.1 := by
  rw [membershipStep]
  by_cases hcond : (decide (g.name = "") || !shouldSyncGroup cfg g.name) = true
  · rw [if_pos hcond]
    exact memberGrows_refl st
  · rw [if_neg hcond]
    cases halk : alookup (sanitizeName g.name) st.groups with
    | none =>
      simp only [halk]
      exact memberGrows_refl st
    | some rec0 =>
      simp only [halk]
      cases dry with
      | true =>
        rw [if_pos rfl]
        exact memberGrows_refl st
      | false =>
        simp only [Bool.false_eq_true, if_false]
        exact memberGrows_trans
          (memberGrows_addUserMembersLive _ _ st stats)
          (memberGrows_addGroupMembersLive _ _ _ _)

theorem memberGrows_sync_memberships (cfg : SyncConfig) (dry : Bool)
    (resolve : String → ResolveRes) :
    ∀ (gs : List ADGroupRec) (st : IPAState) (stats : Stats),
      memberGrows st (sync_memberships cfg dry resolve gs st stats).2.1 := by
  intro gs
  induction gs with
  | nil => intro st stats; exact memberGrows_refl st
  | cons g rest ih =>
    intro st stats
    exact memberGrows_trans (memberGrows_membershipStep cfg dry resolve g st stats)
      (ih _ _)

theorem membershipStep_events_add_only (cfg : SyncConfig) (dry : Bool)
    (resolve : String → ResolveRes) (g : ADGroupRec) (st : IPAState)
    (stats : Stats) :
    ∀ e ∈ (membershipStep cfg dry resolve g st stats).1,
      e.isMutating = true → e.isAddMemberCall = true := by
  intro e he hm
  rw [membershipStep] at he
  by_cases hcond : (decide (g.name = "") || !shouldSyncGroup cfg g.name) = true
  · rw [if_pos hcond] at he
    simp at he
  · rw [if_neg hcond] at he
    cases halk : alookup (sanitizeName g.name) st.groups with
    | none =>
      simp only [halk] at he
      simp at he
      rcases he with rfl | rfl <;> simp [Ev.isMutating] at hm
    | some rec0 =>
      simp only [halk] at he
      cases dry with
      | true =>
        rw [if_pos rfl] at he
        simp at he
        rcases he with rfl | ⟨u, _, rfl⟩ | ⟨m, _, rfl⟩ <;>
          simp [Ev.isMutating] at hm
      | false =>
        simp only [Bool.false_eq_true, if_false] at he
        rw [List.mem_append, List.mem_append, addUserMembersLive_trace,
          addGroupMembersLive_trace] at he
        rcases he with (he | he) | he
        · simp at he
          subst he
          simp [Ev.isMutating] at hm
        · obtain ⟨u, _, rfl⟩ := List.mem_map.mp he
          rfl
        · obtain ⟨m, _, rfl⟩ := List.mem_map.mp he
          rfl

/-- C3: For every source snapshot and target membership state, the Membership
Reconciler emits only AddMember actions and never a removal: after any run
(dry or live, including a run where the source dropped a member), every target
group present before the run is still present, and its user-member and
group-member sets are supersets of (or equal to) their pre-run state; every
mutating event of the phase is an AddMember call (the embedding has no
removal call because the code contains none). -/
theorem C3_membership_additive_only :
    ∀ (cfg : SyncConfig) (dry : Bool) (resolve : String → ResolveRes)
      (gs : List ADGroupRec) (st : IPAState) (stats : Stats),
      (∀ g r, alookup g st.groups = some r →
        ∃ r', alookup g
            ((sync_memberships cfg dry resolve gs st stats).2.1).groups =
              some r' ∧
          r.member_user ⊆ r'.member_user ∧
          r.member_group ⊆ r'.member_group) ∧
      (∀ e ∈ (sync_memberships cfg dry resolve gs st stats).1,
        e.isMutating = true → e.isAddMemberCall = true) := by
  intro cfg dry resolve gs st stats
  refine ⟨memberGrows_sync_memberships cfg dry resolve gs st stats, ?_⟩
  induction gs generalizing st stats with
  | nil => intro e he; simp [sync_memberships] at he
  | cons g rest ih =>
    intro e he hm
    rw [sync_memberships] at he
    simp only [List.mem_append] at he
    rcases he with he | he
    · exact membershipStep_events_add_only cfg dry resolve g st stats e he hm
    · exact ih _ _ e he hm

/-- C3 witness: the superset conclusion at a concrete state where group "g"
already holds user member "a" and the snapshot provides no members. -/
theorem C3_membership_additive_only_witness :
    ∃ r', alookup "g" ((sync_memberships {} false (fun _ => .notFound)
        [{ name := "g", member := [] }]
        { groups := [("g", { member_user := ["a"] })] } {}).2.1).groups =
          some r' ∧
      (({ member_user := ["a"] } : IPAGroupRec)).member_user ⊆ r'.member_user ∧
      (({ member_user := ["a"] } : IPAGroupRec)).member_group ⊆ r'.member_group :=
  (C3_membership_additive_only {} false (fun _ => .notFound)
    [{ name := "g", member := [] }]
    { groups := [("g", { member_user := ["a"] })] } {}).1 "g"
    { member_user := ["a"] } (by decide)

namespace Azure

/-- An Azure Entra user as returned by the Graph query (the fields consumed
by `azure_freeipa_sync.py`); `none` means the key is absent or null. -/
structure AzUser where
  userPrincipalName : String := ""
  givenName : Option String := none
  surname : Option String := none
  displayName : Option String := none

/-- An Azure group with the member user-principal-names that
`get_group_members` returns (users only). -/
structure AzGroup where
  displayName : String
  members : List String := []

/-- The Azure snapshot fetched by one run. -/
structure AzSnapshot where
  users : List AzUser := []
  groups : List AzGroup := []

/-- The FreeIPA state as the Azure tool reads and mutates it: the existing
user uids, and the groups with their user members. -/
structure AzState where
  users : List String := []
  groups : List (String × List String) := []
deriving DecidableEq

/-- Run statistics (`self.stats`, numeric counters). -/
structure AzStats where
  users_created : Nat := 0
  users_updated : Nat := 0
  users_errors : Nat := 0
  groups_created : Nat := 0
  groups_updated : Nat := 0
  groups_errors : Nat := 0
deriving DecidableEq

/-- Observable events of an Azure run. -/
inductive AzEv where
  | backup
  | dryRunSummary (nusers ngroups : Nat)
  | user_show (u : String) (found : Bool)
  | user_add (uid givenname sn cn : String)
  | user_mod_password (u : String)
  | user_mod_pwexpiry (u : String)
  | group_show (g : String) (found : Bool)
  | group_add (g : String)
  | group_add_member (g u : String)
  | memberMissing (g u : String)
deriving DecidableEq

/-- Per-entity decisions of a run — the object of the dry-run parity claim. -/
inductive AzDecision where
  | createUser (uid : String)
  | skipUser (uid : String)
  | createGroup (g : String)
  | groupExists (g : String)
  | addMember (g uid : String)
  | skipMember (g uid : String)
deriving DecidableEq

/-- Trace, decisions, final state and statistics of (part of) a run. -/
structure Out where
  trace : List AzEv := []
  decisions : List AzDecision := []
  state : AzState
  stats : AzStats

/-- `upn.split('@')[0]`. -/
def upnLocal (s : String) : String :=
  String.mk (s.data.takeWhile (fun c => c ≠ '@'))

/-- ASCII whitespace (the claims use ASCII data only). -/
def isSpaceB (c : Char) : Bool :=
  c = ' ' || c = '\t' || c = '\n' || c = '\r'

/-- Python `str.strip()` on ASCII data. -/
def stripS (s : String) : String :=
  String.mk (((s.data.dropWhile isSpaceB).reverse.dropWhile isSpaceB).reverse)

/-- `displayName.lower().replace(' ', '-')` (ASCII lowering). -/
def azGroupName (s : String) : String :=
  String.mk (s.data.map (fun c => if c.toLower = ' ' then '-' else c.toLower))

/-- `sync_user_to_freeipa` (lines 319-396), modelled with an empty `[mapping]`
section (a legitimate configuration): the mapped attributes are uid, mail,
login shell and home directory; given name, surname and common name come from
the raw Azure fields with the documented fallbacks.  The generated temporary
password is random and therefore abstracted into the `user_mod_password`
event. -/
def sync_user_to_freeipa (u : AzUser) (st : AzState) (stats : AzStats) : Out :=
  if u.userPrincipalName = "" then
    { state := st, stats := { stats with users_errors := stats.users_errors + 1 } }
  else
    let uid := upnLocal u.userPrincipalName
    if uid = "" then { state := st, stats := stats }
    else if bcontains uid st.users then
      { trace := [.user_show uid true], decisions := [.skipUser uid],
        state := st, stats := stats }
    else
      let g0 := u.givenName.getD ""
      let s0 := u.surname.getD ""
      let c0 := stripS (match u.displayName with
        | some d => d
        | none => g0 ++ " " ++ s0)
      let g1 := if g0 = "" then uid else g0
      let s1 := if s0 = "" then uid else s0
      let c1 := if c0 = "" then g1 ++ " " ++ s1 else c0
      { trace := [.user_show uid false, .user_add uid g1 s1 c1,
          .user_mod_password uid, .user_mod_pwexpiry uid],
        decisions := [.createUser uid],
        state := { st with users := st.users ++ [uid] },
        stats := { stats with users_created := stats.users_created + 1 } }

/-- The member loop of `sync_group_to_freeipa` (lines 460-474): every member
is looked up and added unconditionally (no set difference on the Azure path),
missing users are skipped with a warning. -/
def azAddMembers (gname : String) :
    List String → AzState → List AzEv × List AzDecision × AzState
  | [], st => ([], [], st)
  | upn :: rest, st =>
    let muid := upnLocal upn
    if bcontains muid st.users then
      let st1 := { st with
        groups := updAssoc gname (fun ms => insertSet muid ms) st.groups }
      let r := azAddMembers gname rest st1
      (.group_add_member gname muid :: r.1, .addMember gname muid :: r.2.1,
       r.2.2)
    else
      let r := azAddMembers gname rest st
      (.memberMissing gname muid :: r.1, .skipMember gname muid :: r.2.1,
       r.2.2)

/-- `sync_group_to_freeipa` (lines 440-481). -/
def sync_group_to_freeipa (g : AzGroup) (st : AzState) (stats : AzStats) :
    Out :=
  let gname := azGroupName g.displayName
  match alookup gname st.groups with
  | some _ =>
    let r := azAddMembers gname g.members st
    { trace := [.group_show gname true] ++ r.1,
      decisions := .groupExists gname :: r.2.1,
      state := r.2.2, stats := stats }
  | none =>
    let st1 := { st with groups := st.groups ++ [(gname, [])] }
    let r := azAddMembers gname g.members st1
    { trace := [.group_show gname false, .group_add gname] ++ r.1,
      decisions := .createGroup gname :: r.2.1,
      state := r.2.2,
      stats := { stats with groups_created := stats.groups_created + 1 } }

/-- The user batch loop of `run_sync` (batching only paces the calls; the
per-user order is the snapshot order). -/
def sync_users_run : List AzUser → AzState → AzStats → Out
  | [], st, stats => { state := st, stats := stats }
  | u :: rest, st, stats =>
    let r := sync_user_to_freeipa u st stats
    let r2 := sync_users_run rest r.state r.stats
    { trace := r.trace ++ r2.trace, decisions := r.decisions ++ r2.decisions,
      state := r2.state, stats := r2.stats }

/-- The group loop of `run_sync`. -/
def sync_groups_run : List AzGroup → AzState → AzStats → Out
  | [], st, stats => { state := st, stats := stats }
  | g :: rest, st, stats =>
    let r := sync_group_to_freeipa g st stats
    let r2 := sync_groups_run rest r.state r.stats
    { trace := r.trace ++ r2.trace, decisions := r.decisions ++ r2.decisions,
      state := r2.state, stats := r2.stats }

/-- `run_sync` (lines 513-579): a dry run logs a summary and returns right
after fetching the snapshot, before any per-entity processing; a live run
performs the backup and then the user and group loops. -/
def run_sync (snap : AzSnapshot) (st : AzState) (dry : Bool) : Out :=
  if dry then
    { trace := [.dryRunSummary snap.users.length snap.groups.length],
      state := st, stats := {} }
  else
    let ru := sync_users_run snap.users st {}
    let rg := sync_groups_run snap.groups ru.state ru.stats
    { trace := [.backup] ++ ru.trace ++ rg.trace,
      decisions := ru.decisions ++ rg.decisions,
      state := rg.state, stats := rg.stats }

end Azure

theorem syncUserStep_dry (cfg : SyncConfig) (force : Bool) (u : ADUserRec)
    (st : IPAState) (stats : Stats) :
    (syncUserStep cfg true force u st stats).2.1 = st ∧
    ∀ e ∈ (syncUserStep cfg true force u st stats).1, e.isMutating = false := by
  constructor
  · rw [syncUserStep]
    by_cases hcond : (decide (u.username = "") || !shouldSyncUser cfg u.username) = true
    · rw [if_pos hcond]
    · rw [if_neg hcond]
      cases halk : alookup u.username st.users with
      | some rec0 => simp [halk]
      | none => simp [halk]
  · intro e he
    rw [syncUserStep] at he
    by_cases hcond : (decide (u.username = "") || !shouldSyncUser cfg u.username) = true
    · rw [if_pos hcond] at he
      simp at he
      subst he
      rfl
    · rw [if_neg hcond] at he
      cases halk : alookup u.username st.users with
      | some rec0 =>
        simp [halk] at he
        rcases he with rfl | rfl <;> rfl
      | none =>
        simp [halk] at he
        rcases he with rfl | rfl <;> rfl

theorem sync_users_dry (cfg : SyncConfig) (force : Bool) :
    ∀ (us : List ADUserRec) (st : IPAState) (stats : Stats),
      (sync_users cfg true force us st stats).2.1 = st ∧
      ∀ e ∈ (sync_users cfg true force us st stats).1, e.isMutating = false := by
  intro us
  induction us with
  | nil => intro st stats; exact ⟨rfl, by intro e he; simp [sync_users] at he⟩
  | cons u rest ih =>
    intro st stats
    obtain ⟨hs, ht⟩ := syncUserStep_dry cfg force u st stats
    rw [sync_users]
    constructor
    · show (sync_users cfg true force rest _ _).2.1 = st
      rw [hs, (ih _ _).1]
    · intro e he
      simp only [List.mem_append] at he
      rcases he with he | he
      · exact ht e he
      · rw [hs] at he
        exact (ih _ _).2 e he

theorem syncGroupStep_dry (cfg : SyncConfig) (force : Bool) (g : ADGroupRec)
    (st : IPAState) (stats : Stats) :
    (syncGroupStep cfg true force g st stats).2.1 = st ∧
    ∀ e ∈ (syncGroupStep cfg true force g st stats).1, e.isMutating = false := by
  constructor
  · rw [syncGroupStep]
    by_cases hcond : (decide (g.name = "") || !shouldSyncGroup cfg g.name) = true
    · rw [if_pos hcond]
    · rw [if_neg hcond]
      cases halk : alookup (sanitizeName g.name) st.groups with
      | some rec0 =>
        by_cases hf : (!force) = true <;> simp [halk, hf]
      | none => simp [halk]
  · intro e he
    rw [syncGroupStep] at he
    by_cases hcond : (decide (g.name = "") || !shouldSyncGroup cfg g.name) = true
    · rw [if_pos hcond] at he
      simp at he
    · rw [if_neg hcond] at he
      cases halk : alookup (sanitizeName g.name) st.groups with
      | some rec0 =>
        by_cases hf : (!force) = true <;>
          · simp [halk, hf] at he
            rcases he with rfl | rfl <;> rfl
      | none =>
        simp [halk] at he
        rcases he with rfl | rfl <;> rfl

theorem sync_groups_dry (cfg : SyncConfig) (force : Bool) :
    ∀ (gs : List ADGroupRec) (st : IPAState) (stats : Stats),
      (sync_groups cfg true force gs st stats).2.1 = st ∧
      ∀ e ∈ (sync_groups cfg true force gs st stats).1, e.isMutating = false := by
  intro gs
  induction gs with
  | nil => intro st stats; exact ⟨rfl, by intro e he; simp [sync_groups] at he⟩
  | cons g rest ih =>
    intro st stats
    obtain ⟨hs, ht⟩ := syncGroupStep_dry cfg force g st stats
    rw [sync_groups]
    constructor
    · show (sync_groups cfg true force rest _ _).2.1 = st
      rw [hs, (ih _ _).1]
    · intro e he
      simp only [List.mem_append] at he
      rcases he with he | he
      · exact ht e he
      · rw [hs] at he
        exact (ih _ _).2 e he

theorem membershipStep_dry (cfg : SyncConfig)
    (resolve : String → ResolveRes) (g : ADGroupRec) (st : IPAState)
    (stats : Stats) :
    (membershipStep cfg true resolve g st stats).2.1 = st ∧
    ∀ e ∈ (membershipStep cfg true resolve g st stats).1,
      e.isMutating = false := by
  constructor
  · rw [membershipStep]
    by_cases hcond : (decide (g.name = "") || !shouldSyncGroup cfg g.name) = true
    · rw [if_pos hcond]
    · rw [if_neg hcond]
      cases halk : alookup (sanitizeName g.name) st.groups with
      | none => simp [halk]
      | some rec0 => simp [halk]
  · intro e he
    rw [membershipStep] at he
    by_cases hcond : (decide (g.name = "") || !shouldSyncGroup cfg g.name) = true
    · rw [if_pos hcond] at he
      simp at he
    · rw [if_neg hcond] at he
      cases halk : alookup (sanitizeName g.name) st.groups with
      | none =>
        simp [halk] at he
        rcases he with rfl | rfl <;> rfl
      | some rec0 =>
        simp [halk] at he
        rcases he with rfl | ⟨x, _, rfl⟩ | ⟨x, _, rfl⟩ <;> rfl

theorem sync_memberships_dry (cfg : SyncConfig)
    (resolve : String → ResolveRes) :
    ∀ (gs : List ADGroupRec) (st : IPAState) (stats : Stats),
      (sync_memberships cfg true resolve gs st stats).2.1 = st ∧
      ∀ e ∈ (sync_memberships cfg true resolve gs st stats).1,
        e.isMutating = false := by
  intro gs
  induction gs with
  | nil =>
    intro st stats
    exact ⟨rfl, by intro e he; simp [sync_memberships] at he⟩
  | cons g rest ih =>
    intro st stats
    obtain ⟨hs, ht⟩ := membershipStep_dry cfg resolve g st stats
    rw [sync_memberships]
    constructor
    · show (sync_memberships cfg true resolve rest _ _).2.1 = st
      rw [hs, (ih _ _).1]
    · intro e he
      simp only [List.mem_append] at he
      rcases he with he | he
      · exact ht e he
      · rw [hs] at he
        exact (ih _ _).2 e he

theorem ensure_id_range_props (b : Nat) (st : IPAState) :
    ((ensure_id_range b st).2.users = st.users ∧
     (ensure_id_range b st).2.groups = st.groups) ∧
    ∀ e ∈ (ensure_id_range b st).1,
      e.isMutating = true → e.isIdrangeAdd = true := by
  rw [ensure_id_range]
  by_cases h : st.idrangeExists = true
  · rw [if_pos h]
    refine ⟨⟨rfl, rfl⟩, ?_⟩
    intro e he hm
    simp at he
    subst he
    simp [Ev.isMutating] at hm
  · rw [if_neg h]
    refine ⟨⟨rfl, rfl⟩, ?_⟩
    intro e he hm
    simp at he
    rcases he with rfl | rfl
    · simp [Ev.isMutating] at hm
    · rfl

/-- C2 counterexample: the claim fails as stated, in both tools.  In ad_sync,
a dry run against a target without the AD_SYNC_RANGE id-range still invokes
the mutating `idrange_add` call (the best-effort identity-range setup runs
before the dry-run gating).  In azure-sync, a dry run returns right after
fetching, so its per-entity decision sequence is empty while the live run on
the same snapshot creates user "jdoe" — the decision sequences differ. -/
theorem C2_counterexample_dry_mutation_and_azure_divergence :
    Ev.idrange_add 200000 200 100000200 ∈
      (ADSync.sync { } {} { idrangeExists := false } true false false).1 ∧
    (Ev.idrange_add 200000 200 100000200).isMutating = true ∧
    (Azure.run_sync { users := [{ userPrincipalName := "jdoe@example.com" }] }
      {} true).decisions = [] ∧
    (Azure.run_sync { users := [{ userPrincipalName := "jdoe@example.com" }] }
      {} false).decisions = [Azure.AzDecision.createUser "jdoe"] :=
  ⟨by decide, by decide, by decide, by decide⟩

/-- C2 (amended): For every fixed source snapshot and fixed target state, an
ad_sync dry run invokes no target-mutating collaborator call other than the
best-effort identity-range setup (every mutating event of a dry trace is an
idrange-add), and consequently leaves the target's user and group state
unchanged; the azure-sync dry run takes no per-entity decisions at all and
leaves the state unchanged, so decision-sequence parity with a live run does
not hold there. -/
theorem C2_dry_run_mutation_discipline :
    (∀ (snap : ADSnapshot) (cfg : SyncConfig) (st : IPAState) (fu fg : Bool),
      (∀ e ∈ (ADSync.sync snap cfg st true fu fg).1,
        e.isMutating = true → e.isIdrangeAdd = true) ∧
      ((ADSync.sync snap cfg st true fu fg).2.1).users = st.users ∧
      ((ADSync.sync snap cfg st true fu fg).2.1).groups = st.groups) ∧
    (∀ (snap : Azure.AzSnapshot) (st : Azure.AzState),
      (Azure.run_sync snap st true).decisions = [] ∧
      (Azure.run_sync snap st true).state = st) := by
  constructor
  · intro snap cfg st fu fg
    have hu1 : ∀ (st' : IPAState) (stats' : Stats),
        (sync_users cfg true fu snap.users st' stats').2.1 = st' :=
      fun st' stats' => (sync_users_dry cfg fu snap.users st' stats').1
    have hg1 : ∀ (st' : IPAState) (stats' : Stats),
        (sync_groups cfg true fg snap.groups st' stats').2.1 = st' :=
      fun st' stats' => (sync_groups_dry cfg fg snap.groups st' stats').1
    have hm1 : ∀ (st' : IPAState) (stats' : Stats),
        (sync_memberships cfg true snap.resolve snap.groups st' stats').2.1 = st' :=
      fun st' stats' => (sync_memberships_dry cfg snap.resolve snap.groups st' stats').1
    have hst : (ADSync.sync snap cfg st true fu fg).2.1 =
        (ensure_id_range cfg.idRangeBase st).2 := by
      rw [ADSync.sync]
      by_cases h1 : cfg.syncUsers = true <;>
        by_cases h2 : cfg.syncGroups = true <;>
          by_cases h3 : cfg.syncMemberships = true <;>
            simp [h1, h2, h3, hu1, hg1, hm1]
    refine ⟨?_, ?_, ?_⟩
    · intro e he hm
      rw [ADSync.sync] at he
      simp only [List.mem_append] at he
      rcases he with ((he | he) | he) | he
      · exact (ensure_id_range_props cfg.idRangeBase st).2 e he hm
      · by_cases h1 : cfg.syncUsers = true
        · rw [if_pos h1] at he
          have hfalse := (sync_users_dry cfg fu snap.users _ _).2 e he
          rw [hm] at hfalse
          simp at hfalse
        · rw [if_neg h1] at he
          simp at he
      · by_cases h2 : cfg.syncGroups = true
        · rw [if_pos h2] at he
          have hfalse := (sync_groups_dry cfg fg snap.groups _ _).2 e he
          rw [hm] at hfalse
          simp at hfalse
        · rw [if_neg h2] at he
          simp at he
      · by_cases h3 : cfg.syncMemberships = true
        · rw [if_pos h3] at he
          have hfalse := (sync_memberships_dry cfg snap.resolve snap.groups _ _).2 e he
          rw [hm] at hfalse
          simp at hfalse
        · rw [if_neg h3] at he
          simp at he
    · rw [hst]
      exact (ensure_id_range_props cfg.idRangeBase st).1.1
    · rw [hst]
      exact (ensure_id_range_props cfg.idRangeBase st).1.2
  · intro snap st
    exact ⟨rfl, rfl⟩

/-- C2 witness: the amended theorem applied at a concrete state without the
id-range, instantiated at the idrange-add event of the dry trace. -/
theorem C2_dry_run_mutation_discipline_witness :
    (Ev.idrange_add 200000 200 100000200).isIdrangeAdd = true :=
  ((C2_dry_run_mutation_discipline.1 { } {} { idrangeExists := false }
      false false).1 (Ev.idrange_add 200000 200 100000200)
    (by decide) (by decide))
